import Mathlib

/-!
A shallow embedding of the `mumble-rs` client core (`src/lib.rs`, `src/util.rs`)
and proofs about its handshake sequencer, steady-state loops, and helpers.

Modelling conventions:
* Protobuf message structs are modelled with exactly the fields the client
  reads or writes (`get_name`, `get_actor`, `get_session`, `get_channel_id`,
  the `TextMessage` setters); unsigned 32-bit protobuf integers become `Nat`
  (no arithmetic is ever performed on them).
* The `HashMap<u32, Channel>` is modelled as an association list with
  replace-on-insert semantics (`mapInsert` / `mapGet`), matching
  `HashMap::insert` and `HashMap::get_mut`.
* Rust panics (`.expect(...)`, reached in `Client::new`) are modelled as an
  explicit `panic` outcome carrying the panic message, distinct from the
  `Err(Error)` return values of the crate's `Result` type.
* The network stream is modelled as the list of typed inbound packets the
  codec would deliver; the codec and TLS layers are out of scope per the spec.
-/

namespace MumbleRs

/-- The crate's error enum (`src/lib.rs` lines 40-48): only `Network` and
`Tls` variants exist. The payloads (`tokio::io::Error`, `native_tls::Error`)
are opaque external types, modelled as an opaque tag. -/
inductive Error where
  | network (tag : Nat)
  | tls (tag : Nat)
deriving DecidableEq, Repr

/-- Model of `mumble_protocol::control::msgs::Version`, restricted to the fields the
client stores or sets (`set_version`, `set_release`, `set_os`,
`set_os_version`). -/
structure VersionMsg where
  version : Nat
  release : String
  os : String
  os_version : String
deriving DecidableEq, Repr

/-- Model of `msgs::ChannelState`, restricted to the fields the client reads:
`get_channel_id` (the map key) and `get_name` (used by
`util::get_channel_by_name`). -/
structure ChannelStateMsg where
  channel_id : Nat
  name : String
deriving DecidableEq, Repr

/-- Model of `msgs::UserState`, restricted to the fields the client reads:
`get_name`, `get_actor`, `get_session`, `get_channel_id`. -/
structure UserStateMsg where
  name : String
  actor : Nat
  session : Nat
  channel_id : Nat
deriving DecidableEq, Repr

/-- Model of `msgs::TextMessage`, restricted to the fields `send_message` sets:
`set_actor`, `set_session`, `set_channel_id`, `set_message`. -/
structure TextMessageMsg where
  actor : Nat
  session : List Nat
  channel_id : List Nat
  message : String
deriving DecidableEq, Repr

/-- A typed inbound packet, `ControlPacket<Clientbound>`. The constructors
the client matches on are listed explicitly; every other clientbound variant
(UserRemove, ChannelRemove, CryptSetup, PermissionQuery, ...) falls into the
catch-all `other`, mirroring the `unexpected =>` match arms. -/
inductive Packet where
  | version (v : VersionMsg)
  | channelState (c : ChannelStateMsg)
  | userState (u : UserStateMsg)
  | serverSync
  | textMessage (m : TextMessageMsg)
  | ping
  | other (tag : Nat)
deriving DecidableEq, Repr

/-- An outbound packet, `ControlPacket<Serverbound>`, restricted to what the
client ever sends plus a catch-all for handler-originated sends. -/
inductive OutPacket where
  | authenticate (username : String) (opus : Bool)
  | version (v : VersionMsg)
  | ping
  | textMessage (m : TextMessageMsg)
  | other (tag : Nat)
deriving DecidableEq, Repr

/-- Model of `Channel` (`src/lib.rs` lines 61-67): a `Vec` of users plus the
`ChannelState` info. -/
structure Channel where
  users : List UserStateMsg
  info : ChannelStateMsg
deriving DecidableEq, Repr

/-- Association-list model of `HashMap<u32, Channel>::insert`: replaces the
binding in place when the key is present, appends otherwise. -/
def mapInsert (m : List (Nat × Channel)) (k : Nat) (v : Channel) :
    List (Nat × Channel) :=
  match m with
  | [] => [(k, v)]
  | (k', v') :: rest =>
    if k' = k then (k, v) :: rest else (k', v') :: mapInsert rest k v

/-- Association-list model of `HashMap<u32, Channel>` lookup (`get_mut` /
indexing): the first binding for the key, if any. -/
def mapGet (m : List (Nat × Channel)) (k : Nat) : Option Channel :=
  match m with
  | [] => none
  | (k', v') :: rest => if k' = k then some v' else mapGet rest k

/-- Model of `ClientInfo` (`src/lib.rs` lines 30-38). -/
structure ClientInfo where
  channel_info : List (Nat × Channel)
  server_info : Option VersionMsg
  username : String
  actor_id : Nat
  session_id : Nat
deriving DecidableEq, Repr

/-- The mutable locals of the bulk-synchronization loop of `Client::new`
(`src/lib.rs` lines 132-134): `channel_info`, `actor_id`, `session_id`. -/
structure SyncState where
  channel_info : List (Nat × Channel)
  actor_id : Option Nat
  session_id : Option Nat
deriving DecidableEq, Repr

/-- The loop locals as initialised at `src/lib.rs` lines 132-134. -/
def initSync : SyncState := ⟨[], none, none⟩

/-- Outcome of one iteration of the bulk-synchronization loop body
(`src/lib.rs` lines 136-162): keep looping with an updated state, `break`
on `ServerSync`, or panic (the `.expect("User in invalid channel")`). -/
inductive StepOut where
  | cont (s : SyncState)
  | stop (s : SyncState)
  | panic (msg : String)
deriving DecidableEq, Repr

/-- The panic message of `src/lib.rs` line 154. -/
def invalidChannelMsg : String := "User in invalid channel"

/-- The panic message of `src/lib.rs` lines 171-176 (same string on both
`expect` calls). -/
def ownUserMissingMsg : String :=
  "We didn't get out own user back from the server, this shouldn't be happening"

/-- One iteration of the bulk-synchronization loop body, `src/lib.rs`
lines 136-162: `ServerSync` breaks; `ChannelState` inserts a fresh channel
with an empty user vec; `UserState` first captures actor/session ids when
the name matches the authenticated username, then appends the user to its
channel, panicking if the channel id is absent; everything else is logged
and discarded. -/
def step (username : String) (s : SyncState) : Packet → StepOut
  | .serverSync => .stop s
  | .channelState ch =>
    .cont { s with
      channel_info := mapInsert s.channel_info ch.channel_id ⟨[], ch⟩ }
  | .userState u =>
    let s' :=
      if u.name = username then
        { s with actor_id := some u.actor, session_id := some u.session }
      else s
    match mapGet s'.channel_info u.channel_id with
    | none => .panic invalidChannelMsg
    | some c =>
      .cont { s' with
        channel_info :=
          mapInsert s'.channel_info u.channel_id { c with users := c.users ++ [u] } }
  | _ => .cont s

/-- Outcome of the whole bulk-synchronization loop: the final loop locals, or
a panic. -/
inductive SyncOutcome where
  | panic (msg : String)
  | ok (s : SyncState)
deriving DecidableEq, Repr

/-- The bulk-synchronization loop of `Client::new` (`src/lib.rs` lines
135-163): `while let Some(packet) = receiver.next().await` over the inbound
stream; returns the outcome together with the packets left unread on the
stream. The loop also exits normally when the stream ends without a
`ServerSync`. -/
def syncLoop (username : String) (s : SyncState) :
    List Packet → SyncOutcome × List Packet
  | [] => (.ok s, [])
  | p :: rest =>
    match step username s p with
    | .cont s' => syncLoop username s' rest
    | .stop s' => (.ok s', rest)
    | .panic msg => (.panic msg, rest)

/-- Runs the loop body over a list of packets, yielding the reached state
only when every packet keeps the loop running (no `break`, no panic). Used
to phrase "the loop reaches state `s` after the prefix `pre`". -/
def stepsThrough (username : String) (s : SyncState) :
    List Packet → Option SyncState
  | [] => some s
  | p :: rest =>
    match step username s p with
    | .cont s' => stepsThrough username s' rest
    | _ => none

/-- Outcome of `Client::new` from the start of the state-gathering phase:
a panic, an `Err(Error)` return (never produced in this phase, but part of
`Client::new`'s `Result` signature), or the assembled `ClientInfo` snapshot
together with the unread remainder of the stream. -/
inductive BuildOutcome where
  | panic (msg : String)
  | err (e : Error)
  | ok (info : ClientInfo) (rest : List Packet)
deriving DecidableEq, Repr

/-- Whether a `BuildOutcome` is an `Err(Error)` value returned to the
caller. -/
def BuildOutcome.isErr : BuildOutcome → Bool
  | .err _ => true
  | _ => false

/-- Whether a `BuildOutcome` is a successfully assembled snapshot. -/
def BuildOutcome.isOk : BuildOutcome → Bool
  | .ok _ _ => true
  | _ => false

/-- Whether a `BuildOutcome` is a panic. -/
def BuildOutcome.isPanic : BuildOutcome → Bool
  | .panic _ => true
  | _ => false

/-- The state-gathering phase of `Client::new` (`src/lib.rs` lines 131-177):
run the bulk-synchronization loop from empty locals, then assemble the
`ClientInfo` snapshot, panicking via `.expect` when the client's own
actor/session ids were never captured. (The `ready` callback call and the
`Arc` packaging that follow do not touch the snapshot.) -/
def gatherAndBuild (username : String) (server_info : Option VersionMsg)
    (packets : List Packet) : BuildOutcome :=
  match syncLoop username initSync packets with
  | (.panic msg, _) => .panic msg
  | (.ok s, rest) =>
    match s.actor_id with
    | none => .panic ownUserMissingMsg
    | some a =>
      match s.session_id with
      | none => .panic ownUserMissingMsg
      | some sess =>
        .ok ⟨s.channel_info, server_info, username, a, sess⟩ rest

/-- The version-exchange read of `Client::new` (`src/lib.rs` lines 104-117):
read at most one packet; store it as server info when it is a `Version`,
otherwise log and discard it. -/
def versionExchange : List Packet → Option VersionMsg × List Packet
  | [] => (none, [])
  | p :: rest =>
    match p with
    | .version v => (some v, rest)
    | _ => (none, rest)

/-- Model of `Client::new` from the point the authenticated stream starts delivering
packets (`src/lib.rs` lines 104-177): version exchange, then the
state-gathering phase. -/
def clientNew (username : String) (packets : List Packet) : BuildOutcome :=
  let (server_info, rest) := versionExchange packets
  gatherAndBuild username server_info rest

/-! ### The steady-state phase: `run`, `ping`, `handle`, `disconnect` -/

/-- Termination behaviour of one steady-state task, abstracting a future to
whether it ever completes and, if so, with which `Result<()>` (modelled as
`Option Error`, `none` standing for `Ok(())`). `Client::ping` (`src/lib.rs`
lines 208-218) loops forever and can only ever return early with an
`Err(Error::Network(..))`; `Client::handle` (lines 220-234) returns `Ok(())`
on stream end or the handler callback's error. -/
inductive TaskOutcome where
  | diverges
  | returns (r : Option Error)
deriving DecidableEq, Repr

/-- Whether the task ever completes. -/
def TaskOutcome.terminates : TaskOutcome → Bool
  | .diverges => false
  | .returns _ => true

/-- Model of `Client::run` (`src/lib.rs` lines 200-206):
`futures::join!(Self::ping(..), self.handle())` awaits both tasks, so the
join completes only when both complete; afterwards `ping_result?;
handle_result?; Ok(())` yields the ping error first, else the handle
result. If either task never completes, neither does `run`. -/
def runOutcome (ping handle : TaskOutcome) : TaskOutcome :=
  match ping, handle with
  | .returns pr, .returns hr =>
    .returns (match pr with
      | some e => some e
      | none => hr)
  | _, _ => .diverges

/-- Model of `SenderExt::send_message` (`src/lib.rs` lines 250-267): builds a
`TextMessage` via `set_actor(client_info.actor_id)`,
`set_session(vec![client_info.session_id])`,
`set_channel_id(vec![channel_id])`, `set_message(message)` and sends it.
The sender is modelled as the ordered list of packets written so far. -/
def send_message (sender : List OutPacket) (message : String) (channel_id : Nat)
    (client_info : ClientInfo) : List OutPacket :=
  sender ++ [OutPacket.textMessage
    ⟨client_info.actor_id, [client_info.session_id], [channel_id], message⟩]

/-- The values of the channel map, `HashMap::values`. -/
def mapValues (m : List (Nat × Channel)) : List Channel := m.map Prod.snd

/-- Model of `util::get_channel_by_name` (`src/util.rs` lines 5-10):
`client_info.channel_info.values().find(|channel| channel.info.get_name() == name).cloned()`. -/
def get_channel_by_name (client_info : ClientInfo) (name : String) :
    Option Channel :=
  (mapValues client_info.channel_info).find? fun channel =>
    channel.info.name == name

/-- The user-supplied `Handler` callbacks (`src/lib.rs` lines 269-283)
reachable during steady state, modelled as pure functions: a callback
receives the handler state, (for `handle`) the inbound packet, and the
snapshot, and yields its new state, the packets it wrote through the shared
sender handle, and its `Result<()>` (`none` for `Ok(())`). -/
structure HandlerModel (σ : Type) where
  handle : σ → Packet → ClientInfo → σ × List OutPacket × Option Error
  finish : σ → ClientInfo → σ × List OutPacket × Option Error

/-- The post-handshake `Client` (`src/lib.rs` lines 20-28): the shared
sender (modelled as the list of packets written so far), the remaining
receive stream, the handler state, and the `info` snapshot. -/
structure ClientState (σ : Type) where
  sent : List OutPacket
  pending : List Packet
  handlerState : σ
  info : ClientInfo

/-- One scheduler step of the steady-state phase. `pingTurn = true` is one
iteration of `Client::ping`'s loop body (`src/lib.rs` lines 210-216): lock
the sender and send a `Ping`. `pingTurn = false` is one iteration of
`Client::handle`'s while-let body (lines 222-232): take the next inbound
packet (doing nothing when the stream is exhausted), run the client's own
(empty) processing, lock the sender and call
`handler.handle(sender, packet, &self.info)`, propagating its error. -/
def steadyStep {σ : Type} (hm : HandlerModel σ) (c : ClientState σ)
    (pingTurn : Bool) : Option Error × ClientState σ :=
  if pingTurn then
    (none, { c with sent := c.sent ++ [OutPacket.ping] })
  else
    match c.pending with
    | [] => (none, c)
    | p :: rest =>
      match hm.handle c.handlerState p c.info with
      | (hs', out, err) =>
        (err, { c with pending := rest, handlerState := hs', sent := c.sent ++ out })

/-- The steady-state dual loop of `Client::run` under an arbitrary
interleaving `schedule` of keepalive ticks and receive-loop iterations; an
error produced by a step ends the run (the `?` operators at `src/lib.rs`
lines 214 and 231). -/
def steadyRun {σ : Type} (hm : HandlerModel σ) :
    List Bool → ClientState σ → Option Error × ClientState σ
  | [], c => (none, c)
  | b :: bs, c =>
    match steadyStep hm c b with
    | (some e, c') => (some e, c')
    | (none, c') => steadyRun hm bs c'

/-- Model of `Client::disconnect` (`src/lib.rs` lines 192-195): lock the
sender and call `handler.finish(sender, &self.info)`. -/
def disconnect {σ : Type} (hm : HandlerModel σ) (c : ClientState σ) :
    Option Error × ClientState σ :=
  match hm.finish c.handlerState c.info with
  | (hs', out, err) => (err, { c with handlerState := hs', sent := c.sent ++ out })

/-! ### Concrete scenario data -/

/-- The channel-description of the spec scenario: `ChannelState{id=1,name="Root"}`. -/
def rootCS : ChannelStateMsg := ⟨1, "Root"⟩

/-- `UserState{name="Bob",channel=1,session=7}`; `actor` is unset in the
scenario, so the protobuf getter yields the default 0. -/
def bobUS : UserStateMsg := ⟨"Bob", 0, 7, 1⟩

/-- `UserState{name="Alice",channel=1,session=9}`; `actor` unset, default 0. -/
def aliceUS : UserStateMsg := ⟨"Alice", 0, 9, 1⟩

/-- The bulk-sync burst of the spec scenario. -/
def scenarioBurst : List Packet :=
  [.channelState rootCS, .userState bobUS, .userState aliceUS, .serverSync]

/-- The snapshot the spec scenario produces. -/
def scenarioInfo : ClientInfo :=
  ⟨[(1, ⟨[bobUS, aliceUS], rootCS⟩)], none, "Alice", 0, 9⟩

/-- A burst whose user-description references channel id 2 before any
channel-description with id 2 exists. -/
def invalidRefBurst : List Packet :=
  [.userState ⟨"Bob", 0, 7, 2⟩, .serverSync]

/-- A burst that never mentions the authenticated username. -/
def noOwnUserBurst : List Packet :=
  [.channelState rootCS, .serverSync]

/-- A prefix reaching a state whose map knows only channel 1. -/
def c1Pre : List Packet := [.channelState rootCS]

/-- A user-description referencing the unknown channel id 2. -/
def c1User : UserStateMsg := ⟨"Bob", 0, 7, 2⟩

/-- A loop prefix exercising a channel, a discarded ping and a matching
user-description. -/
def c5Pre : List Packet := [.channelState rootCS, .ping, .userState aliceUS]

/-- The loop state reached by `c5Pre` under username "Alice". -/
def c5State : SyncState := ⟨[(1, ⟨[aliceUS], rootCS⟩)], some 0, some 9⟩

/-- A prefix that creates channel 1 and appends Bob to it. -/
def c9Pre : List Packet := [.channelState rootCS, .userState bobUS]

/-- The loop state reached by `c9Pre` under username "Bob". -/
def c9Mid : SyncState := ⟨[(1, ⟨[bobUS], rootCS⟩)], some 0, some 7⟩

/-- A second channel-description reusing channel id 1. -/
def c9NewCS : ChannelStateMsg := ⟨1, "Lobby"⟩

/-- First user-description matching the authenticated username "Alice". -/
def c10First : UserStateMsg := ⟨"Alice", 3, 9, 1⟩

/-- Second (and last) matching user-description. -/
def c10U : UserStateMsg := ⟨"Alice", 4, 11, 1⟩

/-- A prefix containing the first matching user-description. -/
def c10Pre : List Packet := [.channelState rootCS, .userState c10First]

/-- Messages after the last matching user-description: only Bob. -/
def c10Mid : List Packet := [.userState bobUS]

/-- The loop state after `c10Pre ++ [c10U] ++ c10Mid` under "Alice". -/
def c10Final : SyncState :=
  ⟨[(1, ⟨[c10First, c10U, bobUS], rootCS⟩)], some 4, some 11⟩

/-- A one-channel snapshot for exercising the lookup helper. -/
def c7Info : ClientInfo := ⟨[(1, ⟨[], rootCS⟩)], none, "Alice", 0, 9⟩

/-! ### Helper lemmas about the map model and the loop -/

theorem mapGet_mapInsert_self (m : List (Nat × Channel)) (k : Nat) (v : Channel) :
    mapGet (mapInsert m k v) k = some v := by
  induction m with
  | nil => simp [mapInsert, mapGet]
  | cons hd tl ih =>
    obtain ⟨k', v'⟩ := hd
    by_cases h : k' = k
    · simp [mapInsert, mapGet, h]
    · simp [mapInsert, mapGet, h, ih]

theorem mapGet_mapInsert_ne (m : List (Nat × Channel)) (k j : Nat) (v : Channel)
    (h : j ≠ k) : mapGet (mapInsert m k v) j = mapGet m j := by
  induction m with
  | nil => simp [mapInsert, mapGet, Ne.symm h]
  | cons hd tl ih =>
    obtain ⟨k', v'⟩ := hd
    by_cases hk : k' = k
    · subst hk
      simp [mapInsert, mapGet, Ne.symm h]
    · by_cases hj : k' = j
      · simp [mapInsert, mapGet, hk, hj, h]
      · simp [mapInsert, mapGet, hk, hj, ih]

/-- Unfolding equation for `syncLoop` on a cons cell. -/
theorem syncLoop_cons (username : String) (s : SyncState) (p : Packet)
    (rest : List Packet) :
    syncLoop username s (p :: rest)
      = match step username s p with
        | .cont s' => syncLoop username s' rest
        | .stop s' => (.ok s', rest)
        | .panic msg => (.panic msg, rest) := rfl

/-- Unfolding equation for `stepsThrough` on a cons cell. -/
theorem stepsThrough_cons (username : String) (s : SyncState) (p : Packet)
    (rest : List Packet) :
    stepsThrough username s (p :: rest)
      = match step username s p with
        | .cont s' => stepsThrough username s' rest
        | _ => none := rfl

/-- Processing a prefix that keeps the loop running, then the rest. -/
theorem syncLoop_append (username : String) (l₁ l₂ : List Packet) :
    ∀ s s', stepsThrough username s l₁ = some s' →
      syncLoop username s (l₁ ++ l₂) = syncLoop username s' l₂ := by
  induction l₁ with
  | nil =>
    intro s s' h
    simp [stepsThrough] at h
    simp [h]
  | cons p t ih =>
    intro s s' h
    rw [stepsThrough_cons] at h
    rw [List.cons_append, syncLoop_cons]
    cases hstep : step username s p with
    | cont s₁ =>
      rw [hstep] at h
      exact ih s₁ s' h
    | stop s₁ => rw [hstep] at h; exact absurd h (by simp)
    | panic m => rw [hstep] at h; exact absurd h (by simp)

/-- Splitting `stepsThrough` over an append. -/
theorem stepsThrough_append (username : String) (l₁ l₂ : List Packet) :
    ∀ s, stepsThrough username s (l₁ ++ l₂)
      = (stepsThrough username s l₁).bind fun s' => stepsThrough username s' l₂ := by
  induction l₁ with
  | nil => intro s; simp [stepsThrough]
  | cons p t ih =>
    intro s
    rw [List.cons_append, stepsThrough_cons, stepsThrough_cons]
    cases hstep : step username s p with
    | cont s₁ => exact ih s₁
    | stop s₁ => simp
    | panic m => simp

/-- A loop-body iteration that keeps looping and is not a matching
user-description leaves the captured actor/session ids untouched. -/
theorem step_cont_ids (username : String) (s s' : SyncState) (p : Packet)
    (hname : ∀ v, p = Packet.userState v → v.name ≠ username)
    (h : step username s p = .cont s') :
    s'.actor_id = s.actor_id ∧ s'.session_id = s.session_id := by
  cases p with
  | serverSync => exact absurd h (by simp [step])
  | channelState ch =>
    simp [step] at h
    simp [← h]
  | userState u =>
    have hne : u.name ≠ username := hname u rfl
    simp only [step, if_neg hne] at h
    cases hget : mapGet s.channel_info u.channel_id with
    | none => rw [hget] at h; exact absurd h (by simp)
    | some c =>
      rw [hget] at h
      simp at h
      simp [← h]
  | version v => simp [step] at h; simp [← h]
  | textMessage m => simp [step] at h; simp [← h]
  | ping => simp [step] at h; simp [← h]
  | other t => simp [step] at h; simp [← h]

/-- Over a burst with no user-description matching the authenticated
username, a normally-terminating loop leaves the captured ids untouched. -/
theorem syncLoop_ok_ids (username : String) (l : List Packet) :
    ∀ s s' rest, (∀ v, Packet.userState v ∈ l → v.name ≠ username) →
      syncLoop username s l = (.ok s', rest) →
      s'.actor_id = s.actor_id ∧ s'.session_id = s.session_id := by
  induction l with
  | nil =>
    intro s s' rest _ h
    simp [syncLoop] at h
    simp [h.1]
  | cons p t ih =>
    intro s s' rest hname h
    rw [syncLoop_cons] at h
    cases hstep : step username s p with
    | cont s₁ =>
      rw [hstep] at h
      have h₁ := step_cont_ids username s s₁ p
        (fun v hv => hname v (by rw [hv]; exact List.mem_cons_self _ _)) hstep
      have h₂ := ih s₁ s' rest
        (fun v hv => hname v (List.mem_cons_of_mem _ hv)) h
      exact ⟨h₂.1.trans h₁.1, h₂.2.trans h₁.2⟩
    | stop s₁ =>
      rw [hstep] at h
      simp at h
      cases p with
      | serverSync =>
        simp [step] at hstep
        rw [← h.1, ← hstep]
        exact ⟨rfl, rfl⟩
      | userState u =>
        revert hstep
        simp only [step]
        split
        · intro hc; exact absurd hc (by simp)
        · intro hc; exact absurd hc (by simp)
      | channelState ch => exact absurd hstep (by simp [step])
      | version v => exact absurd hstep (by simp [step])
      | textMessage m => exact absurd hstep (by simp [step])
      | ping => exact absurd hstep (by simp [step])
      | other tag => exact absurd hstep (by simp [step])
    | panic m =>
      rw [hstep] at h
      exact absurd h (by simp)

/-- Like `step_cont_ids` but along `stepsThrough`. -/
theorem stepsThrough_ids (username : String) (l : List Packet) :
    ∀ s s', (∀ v, Packet.userState v ∈ l → v.name ≠ username) →
      stepsThrough username s l = some s' →
      s'.actor_id = s.actor_id ∧ s'.session_id = s.session_id := by
  induction l with
  | nil =>
    intro s s' _ h
    simp [stepsThrough] at h
    simp [h]
  | cons p t ih =>
    intro s s' hname h
    rw [stepsThrough_cons] at h
    cases hstep : step username s p with
    | cont s₁ =>
      rw [hstep] at h
      have h₁ := step_cont_ids username s s₁ p
        (fun v hv => hname v (by rw [hv]; exact List.mem_cons_self _ _)) hstep
      have h₂ := ih s₁ s'
        (fun v hv => hname v (List.mem_cons_of_mem _ hv)) h
      exact ⟨h₂.1.trans h₁.1, h₂.2.trans h₁.2⟩
    | stop s₁ => rw [hstep] at h; exact absurd h (by simp)
    | panic m => rw [hstep] at h; exact absurd h (by simp)

/-! ### Claim theorems -/

/-- C4: for the burst ChannelState(id 1, "Root"), UserState Bob (channel 1,
session 7), UserState Alice (channel 1, session 9), ServerSync, with
authenticated username "Alice", construction succeeds and the snapshot has
exactly one channel, with id 1 and member list Bob then Alice in that order,
and the client's own session id is 9. -/
theorem c4_scenario_snapshot :
    gatherAndBuild "Alice" none scenarioBurst = .ok scenarioInfo [] ∧
    scenarioInfo.channel_info.length = 1 ∧
    mapGet scenarioInfo.channel_info 1 = some ⟨[bobUS, aliceUS], rootCS⟩ ∧
    scenarioInfo.session_id = 9 :=
  ⟨rfl, rfl, rfl, rfl⟩

/-- C1 counterexample: on a burst whose user-description references the
unknown channel id 2, `Client::new` does not return an error value at all
(the `Error` enum has only `Network` and `Tls`); it panics via
`.expect("User in invalid channel")`. -/
theorem c1_counterexample :
    gatherAndBuild "Alice" none invalidRefBurst = .panic invalidChannelMsg ∧
    (gatherAndBuild "Alice" none invalidRefBurst).isErr = false :=
  ⟨rfl, rfl⟩

/-- C1 (amended): whenever the loop reaches, without having terminated, a
user-description whose channel id is absent from the map, construction
aborts by panicking with "User in invalid channel" (a process abort, not a
returned error value), and no Client Info snapshot is produced. -/
theorem c1_unknown_channel_panics (username : String) (si : Option VersionMsg)
    (pre rest : List Packet) (u : UserStateMsg) (s : SyncState)
    (hpre : stepsThrough username initSync pre = some s)
    (hchan : mapGet s.channel_info u.channel_id = none) :
    gatherAndBuild username si (pre ++ Packet.userState u :: rest)
      = .panic invalidChannelMsg ∧
    (gatherAndBuild username si (pre ++ Packet.userState u :: rest)).isOk
      = false := by
  have hstep : step username s (Packet.userState u) = .panic invalidChannelMsg := by
    by_cases hn : u.name = username <;> simp [step, hn, hchan]
  have hfull : syncLoop username initSync (pre ++ Packet.userState u :: rest)
      = (.panic invalidChannelMsg, rest) := by
    rw [syncLoop_append username pre _ initSync s hpre, syncLoop_cons, hstep]
  unfold gatherAndBuild
  rw [hfull]
  exact ⟨rfl, rfl⟩

/-- C1 witness: channel 1 exists, yet Bob references channel 2. -/
theorem c1_witness :
    gatherAndBuild "Alice" none (c1Pre ++ Packet.userState c1User :: [])
      = .panic invalidChannelMsg :=
  (c1_unknown_channel_panics "Alice" none c1Pre [] c1User
    ⟨[(1, ⟨[], rootCS⟩)], none, none⟩ rfl rfl).1

/-- C2 counterexample: on a burst that never mentions the authenticated
username, `Client::new` does not return an error value; it panics via the
`.expect` on the missing actor/session id. -/
theorem c2_counterexample :
    gatherAndBuild "Alice" none noOwnUserBurst = .panic ownUserMissingMsg ∧
    (gatherAndBuild "Alice" none noOwnUserBurst).isErr = false :=
  ⟨rfl, rfl⟩

/-- C2 (amended): for every burst in which no user-description carries the
authenticated username, construction never completes: it panics (with the
missing-own-user message when the loop itself finished, or with the
invalid-channel message when some user-description referenced an unknown
channel earlier), rather than returning a snapshot or an error value. -/
theorem c2_no_own_user_panics (username : String) (si : Option VersionMsg)
    (burst : List Packet)
    (hname : ∀ v, Packet.userState v ∈ burst → v.name ≠ username) :
    (gatherAndBuild username si burst).isPanic = true ∧
    (gatherAndBuild username si burst).isOk = false := by
  cases hloop : syncLoop username initSync burst with
  | mk out rest =>
    cases out with
    | panic m =>
      unfold gatherAndBuild
      rw [hloop]
      exact ⟨rfl, rfl⟩
    | ok s =>
      have hids := syncLoop_ok_ids username burst initSync s rest hname hloop
      have ha : s.actor_id = none := hids.1
      unfold gatherAndBuild
      rw [hloop]
      simp [ha, BuildOutcome.isPanic, BuildOutcome.isOk]

/-- C2 witness: a Root channel arrives but no user record for "Alice". -/
theorem c2_witness :
    (gatherAndBuild "Alice" none noOwnUserBurst).isPanic = true :=
  (c2_no_own_user_panics "Alice" none noOwnUserBurst
    (by intro v hv; simp [noOwnUserBurst] at hv)).1

/-- C3 counterexample: the receive loop terminates (with `Ok(())`, e.g. on
stream end) while the keepalive loop keeps running, yet `run` does not
complete: `futures::join!` waits for both tasks. -/
theorem c3_counterexample :
    (TaskOutcome.returns (none : Option Error)).terminates = true ∧
    runOutcome TaskOutcome.diverges (TaskOutcome.returns (none : Option Error))
      = TaskOutcome.diverges :=
  ⟨rfl, rfl⟩

/-- C3 (amended): `run` completes exactly when BOTH loops terminate
(`futures::join!`), not when either does; once both have terminated it
yields the keepalive loop's error if it had one, otherwise the receive
loop's result. -/
theorem c3_run_waits_for_both :
    (∀ p h : TaskOutcome,
        (runOutcome p h).terminates = (p.terminates && h.terminates)) ∧
    (∀ (e : Error) (hr : Option Error),
        runOutcome (.returns (some e)) (.returns hr) = .returns (some e)) ∧
    (∀ hr : Option Error,
        runOutcome (.returns none) (.returns hr) = .returns hr) := by
  refine ⟨?_, fun e hr => rfl, fun hr => rfl⟩
  intro p h
  cases p <;> cases h <;> rfl

/-- C5 counterexample: a sequence containing a server-sync in which the loop
neither reaches the sentinel nor merely discards what precedes it: the
user-description referencing an unknown channel makes it abort one message
early, leaving the server-sync unread. -/
theorem c5_counterexample :
    Packet.serverSync ∈ invalidRefBurst ∧
    syncLoop "Alice" initSync invalidRefBurst
      = (SyncOutcome.panic invalidChannelMsg, [Packet.serverSync]) := by
  exact ⟨by simp [invalidRefBurst], rfl⟩

/-- C5 (amended): provided every message before the first server-sync keeps
the loop running (in particular every user-description references a known
channel id), the loop consumes exactly the prefix up to and including the
first server-sync, terminating there with the state gathered so far; and a
message of a kind other than server-sync, channel-description or
user-description is discarded, leaving the loop state unchanged and causing
no failure. -/
theorem c5_stops_at_sentinel :
    (∀ (username : String) (s s' : SyncState) (pre rest : List Packet),
        stepsThrough username s pre = some s' →
        syncLoop username s (pre ++ Packet.serverSync :: rest)
          = (.ok s', rest)) ∧
    (∀ (username : String) (s : SyncState) (v : VersionMsg)
        (m : TextMessageMsg) (t : Nat),
        step username s (.version v) = .cont s ∧
        step username s (.textMessage m) = .cont s ∧
        step username s .ping = .cont s ∧
        step username s (.other t) = .cont s) := by
  refine ⟨?_, fun username s v m t => ⟨rfl, rfl, rfl, rfl⟩⟩
  intro username s s' pre rest hpre
  rw [syncLoop_append username pre _ s s' hpre, syncLoop_cons]
  rfl

/-- C5 witness: a channel, an ignored ping and a user precede the sentinel;
a further packet after the sentinel stays unread. -/
theorem c5_witness :
    syncLoop "Alice" initSync (c5Pre ++ Packet.serverSync :: [Packet.other 3])
      = (SyncOutcome.ok c5State, [Packet.other 3]) :=
  c5_stops_at_sentinel.1 "Alice" initSync c5State c5Pre [Packet.other 3] rfl

/-- C6: the text message sent by `send_message` carries the snapshot's own
actor id as its `actor` field and the singleton list of the snapshot's own
session id as its `session` field, for every caller-supplied message text
and destination channel id — the caller's arguments cannot reach those two
fields. -/
theorem c6_send_message_stamps_own_identity :
    ∀ (sender : List OutPacket) (message : String) (channel_id : Nat)
      (info : ClientInfo), ∃ tm : TextMessageMsg,
      send_message sender message channel_id info
        = sender ++ [OutPacket.textMessage tm] ∧
      tm.actor = info.actor_id ∧ tm.session = [info.session_id] :=
  fun _ _ _ _ => ⟨_, rfl, rfl, rfl⟩

/-- C7: whenever `get_channel_by_name` returns a channel, that channel is
one of the snapshot's channels and bears the queried name; whenever it
returns `none`, no channel of the snapshot bears the queried name (so a
match, if one exists, is always found). The function takes the snapshot by
shared reference and returns a clone, leaving the snapshot unchanged. -/
theorem c7_lookup_correct (info : ClientInfo) (name : String) :
    (∀ c, get_channel_by_name info name = some c →
        c ∈ mapValues info.channel_info ∧ c.info.name = name) ∧
    (get_channel_by_name info name = none →
        ∀ c ∈ mapValues info.channel_info, c.info.name ≠ name) := by
  constructor
  · intro c hc
    simp only [get_channel_by_name] at hc
    refine ⟨List.mem_of_find?_eq_some hc, ?_⟩
    have := List.find?_some hc
    simpa using this
  · intro hnone c hmem
    simp only [get_channel_by_name] at hnone
    have := List.find?_eq_none.mp hnone c hmem
    simpa using this

/-- C7 witness: the Root channel is found in a one-channel snapshot. -/
theorem c7_witness :
    (⟨[], rootCS⟩ : Channel) ∈ mapValues c7Info.channel_info ∧
    (⟨[], rootCS⟩ : Channel).info.name = "Root" :=
  (c7_lookup_correct c7Info "Root").1 ⟨[], rootCS⟩ rfl

/-- C8: the `info` snapshot of the client is never mutated after
construction: any interleaving of keepalive ticks and receive-loop
iterations — whatever the inbound packets are and whatever the handler
callback sends or returns — and any `disconnect` leave the snapshot field
exactly as it was. -/
theorem c8_info_immutable :
    ∀ (σ : Type) (hm : HandlerModel σ) (schedule : List Bool)
      (c : ClientState σ),
      (steadyRun hm schedule c).2.info = c.info ∧
      (disconnect hm c).2.info = c.info := by
  have hstep : ∀ (σ : Type) (hm : HandlerModel σ) (c : ClientState σ)
      (b : Bool), (steadyStep hm c b).2.info = c.info := by
    intro σ hm c b
    cases b with
    | true => rfl
    | false =>
      simp only [steadyStep, Bool.false_eq_true, if_false]
      cases c.pending with
      | nil => rfl
      | cons p rest =>
        rcases hm.handle c.handlerState p c.info with ⟨hs', out, err⟩
        rfl
  intro σ hm schedule c
  constructor
  · induction schedule generalizing c with
    | nil => rfl
    | cons b bs ih =>
      show (steadyRun hm (b :: bs) c).2.info = c.info
      have h1 := hstep σ hm c b
      rw [show steadyRun hm (b :: bs) c
          = match steadyStep hm c b with
            | (some e, c') => (some e, c')
            | (none, c') => steadyRun hm bs c' from rfl]
      cases hs : steadyStep hm c b with
      | mk err c' =>
        rw [hs] at h1
        cases err with
        | some e => exact h1
        | none => exact (ih c').trans h1
  · unfold disconnect
    rcases hm.finish c.handlerState c.info with ⟨hs', out, err⟩
    rfl

/-- C9: a later channel-description with an already-known id replaces the
earlier record in the map: right after it, the binding for that id is the
new record with an empty member list (every user appended between the two
descriptions is discarded), all other bindings are untouched, and the loop
then completes normally on the sentinel with exactly that map. -/
theorem c9_duplicate_channel_replaces (username : String) (s0 : SyncState)
    (pre : List Packet) (ch : ChannelStateMsg) (s : SyncState)
    (hpre : stepsThrough username s0 pre = some s) :
    syncLoop username s0 (pre ++ [Packet.channelState ch, Packet.serverSync])
      = (.ok { s with
          channel_info := mapInsert s.channel_info ch.channel_id ⟨[], ch⟩ }, []) ∧
    mapGet (mapInsert s.channel_info ch.channel_id ⟨[], ch⟩) ch.channel_id
      = some ⟨[], ch⟩ ∧
    ∀ k, k ≠ ch.channel_id →
      mapGet (mapInsert s.channel_info ch.channel_id ⟨[], ch⟩) k
        = mapGet s.channel_info k := by
  refine ⟨?_, mapGet_mapInsert_self _ _ _, fun k hk => mapGet_mapInsert_ne _ _ _ _ hk⟩
  rw [syncLoop_append username pre _ s0 s hpre, syncLoop_cons]
  rfl

/-- C9 witness: channel 1 ("Root") gains member Bob, then a second
channel-description with id 1 ("Lobby") arrives: the final snapshot's
channel 1 is the Lobby record with an empty member list — Bob is gone. -/
theorem c9_witness :
    syncLoop "Bob" initSync
        (c9Pre ++ [Packet.channelState c9NewCS, Packet.serverSync])
      = (SyncOutcome.ok ⟨[(1, ⟨[], c9NewCS⟩)], some 0, some 7⟩, []) :=
  (c9_duplicate_channel_replaces "Bob" initSync c9Pre c9NewCS c9Mid rfl).1

/-- C10: when several user-descriptions carry the authenticated username,
the captured actor and session ids are those of the last such message
(later matches overwrite earlier ones, and messages after it that do not
match leave the capture untouched); and a matching user-description is
nevertheless appended to its channel's member list exactly like any other
user. -/
theorem c10_last_match_wins :
    (∀ (username : String) (s0 s' : SyncState) (pre mid : List Packet)
        (u : UserStateMsg),
        u.name = username →
        (∀ v, Packet.userState v ∈ mid → v.name ≠ username) →
        stepsThrough username s0 (pre ++ Packet.userState u :: mid) = some s' →
        s'.actor_id = some u.actor ∧ s'.session_id = some u.session) ∧
    (∀ (username : String) (s : SyncState) (u : UserStateMsg) (c : Channel),
        u.name = username →
        mapGet s.channel_info u.channel_id = some c →
        step username s (Packet.userState u)
          = .cont ⟨mapInsert s.channel_info u.channel_id
                     ⟨c.users ++ [u], c.info⟩,
                   some u.actor, some u.session⟩) := by
  have hmatch : ∀ (username : String) (s s' : SyncState) (u : UserStateMsg),
      u.name = username → step username s (Packet.userState u) = .cont s' →
      s'.actor_id = some u.actor ∧ s'.session_id = some u.session := by
    intro username s s' u hname h
    simp only [step, if_pos hname] at h
    cases hget : mapGet s.channel_info u.channel_id with
    | none => rw [hget] at h; exact absurd h (by simp)
    | some c =>
      rw [hget] at h
      simp at h
      simp [← h]
  constructor
  · intro username s0 s' pre mid u hname hmid hthrough
    rw [stepsThrough_append] at hthrough
    cases hpre : stepsThrough username s0 pre with
    | none => rw [hpre] at hthrough; exact absurd hthrough (by simp)
    | some s1 =>
      rw [hpre] at hthrough
      simp only [Option.some_bind] at hthrough
      rw [stepsThrough_cons] at hthrough
      cases hstep : step username s1 (Packet.userState u) with
      | cont s2 =>
        rw [hstep] at hthrough
        have hs2 := hmatch username s1 s2 u hname hstep
        have hpres := stepsThrough_ids username mid s2 s' hmid hthrough
        exact ⟨hpres.1.trans hs2.1, hpres.2.trans hs2.2⟩
      | stop s2 => rw [hstep] at hthrough; exact absurd hthrough (by simp)
      | panic m => rw [hstep] at hthrough; exact absurd hthrough (by simp)
  · intro username s u c hname hget
    simp [step, hname, hget]

/-- C10 witness: Alice appears with (actor 3, session 9) and later with
(actor 4, session 11), then Bob; the capture holds the last match's ids. -/
theorem c10_witness :
    c10Final.actor_id = some 4 ∧ c10Final.session_id = some 11 :=
  c10_last_match_wins.1 "Alice" initSync c10Final c10Pre c10Mid c10U rfl
    (by intro v hv; simp [c10Mid] at hv; subst hv; decide) rfl

end MumbleRs
